import Mathlib

/-!
Verification of the fsds-rs marshalling codec and spatial algebra.

This file shallowly embeds the parts of the `fsds-rs` repository that the
claims are about:

* the wire value (`msgpack_rpc::Value`, i.e. `rmpv::Value`) exchanged with
  the simulator;
* the encode/decode implementations generated by the
  `#[derive(FromIntoValue)]` macro of `fsds-rs-derive/src/lib.rs`
  (`impl From<T> for Value` and `impl TryFrom<Value> for T`);
* the hand-written `TryFrom<Value> for ImageType` of `src/types.rs`;
* the spatial algebra (`Vector3r`, `Quaternionr`) of `src/types.rs`.

Modelling choices:

* `f64` payloads are modelled as real numbers (exact-real semantics).  The
  codec never performs arithmetic on floating-point fields, so encode/decode
  move these values around unchanged; the spatial algebra is modelled with
  exact real arithmetic as prescribed by the specification ("exact
  mathematical contracts ... reproduced bit-for-bit in semantics, not
  necessarily in floating-point bit-pattern").  Real division in Lean is
  total with `x / 0 = 0`; where a theorem touches division by zero this is
  noted at the theorem.
* `u64` fields are modelled as `Nat`; `rmpv`'s `Integer` is modelled as a
  mathematical integer `Int` whose constructors `ofNat`/`negSucc` mirror
  `rmpv`'s non-negative/negative integer representations, so that
  `Integer::as_u64` is the evident pattern match.
* A Rust `panic!` (the `unwrap()` in `TryFrom<Value> for ImageType`) is a
  distinguished outcome `Outcome.panicked`, distinct from returned errors.
* The `anyhow` error messages produced by the generated code are distinct
  per failure site; they are modelled by the constructors of `DecodeError`.
-/

/-- Wire value (`msgpack_rpc::Value` = `rmpv::Value`).  The variants unused
by this crate (`F32`, `Ext`) are omitted; `Integer` is a mathematical
integer covering the union of the `i64`/`u64` ranges; a `Map` is an ordered
sequence of key/value pairs, exactly as `rmpv`'s `Vec<(Value, Value)>`. -/
inductive Value where
  | nil
  | boolean (b : Bool)
  | integer (i : Int)
  | float (f : ℝ)
  | str (s : String)
  | binary (bs : List Nat)
  | array (vs : List Value)
  | map (entries : List (Value × Value))

/-- Mirrors `rmpv::Value::as_str`: `Some` exactly on the `String` variant. -/
def Value.asStr : Value → Option String
  | .str s => some s
  | _ => none

/-- The distinct failure sites of the decode implementations, one
constructor per distinct `anyhow!` message of the source:

* `fieldMissing name` — "Field {name} not found in Value::Map."
* `fieldNotConvertible structName` — "Every field of {structName} should be
  convertible to Value."
* `extraFields remaining` — "Value::Map contains extra fields: {remaining}"
  (the remaining key/value pairs of the working map are formatted into the
  message, so the error lists the leftover entries).
* `notAMap structName` — "Value should be a Map to be converted to
  {structName}".
* `invalidImageType` — "Invalid ImageType" (hand-written `ImageType` decode).
* `notConvertible` — the error of a primitive `TryFrom<Value>` conversion
  supplied by `rmpv`; the generated code always discards it via `map_err`,
  replacing it with `fieldNotConvertible`. -/
inductive DecodeError where
  | fieldMissing (fieldName : String)
  | fieldNotConvertible (structName : String)
  | extraFields (remaining : List (Value × Value))
  | notAMap (structName : String)
  | invalidImageType
  | notConvertible

/-- Result of running a fallible Rust conversion: a returned value, a
returned error, or a `panic!` (process abort, e.g. `unwrap()` on `None`).
A panic is not a returned error: `map_err`/`?` cannot observe it, so
`panicked` propagates through every combinator. -/
inductive Outcome (α : Type) where
  | ok (a : α)
  | err (e : DecodeError)
  | panicked

/-- Monadic bind on `Outcome`: `?`-propagation of errors; a panic aborts. -/
def Outcome.bind {α β : Type} : Outcome α → (α → Outcome β) → Outcome β
  | .ok a, f => f a
  | .err e, _ => .err e
  | .panicked, _ => .panicked

instance : Monad Outcome where
  pure := Outcome.ok
  bind := Outcome.bind

@[simp]
theorem Outcome.ok_bind {α β : Type} (a : α) (f : α → Outcome β) :
    (Outcome.ok a : Outcome α) >>= f = f a := rfl

@[simp]
theorem Outcome.err_bind {α β : Type} (e : DecodeError) (f : α → Outcome β) :
    (Outcome.err e : Outcome α) >>= f = Outcome.err e := rfl

@[simp]
theorem Outcome.panicked_bind {α β : Type} (f : α → Outcome β) :
    (Outcome.panicked : Outcome α) >>= f = Outcome.panicked := rfl

/-- The fallback string of the generated key comparison
`k.as_str().unwrap_or("Value::Map should contain only String keys to be converted to a struct.")`.
It is never equal to a field name, so a non-`String` key never matches. -/
def keyFallback : String :=
  "Value::Map should contain only String keys to be converted to a struct."

/-- Generated key test: `k.as_str().unwrap_or(keyFallback) == name`. -/
def keyMatches (k : Value) (name : String) : Bool :=
  ((Value.asStr k).getD keyFallback) == name

/-- Models the generated
`map.iter().position(|(k, _)| keyMatches k name)` followed by
`map.remove(pos)`: find the first entry whose key matches `name`, return its
value together with the map with that entry removed (order of the other
entries preserved); `none` when no key matches. -/
def takeField (name : String) : List (Value × Value) → Option (Value × List (Value × Value))
  | [] => none
  | kv :: rest =>
    if keyMatches kv.1 name then some (kv.2, rest)
    else match takeField name rest with
      | none => none
      | some (v, rest2) => some (v, kv :: rest2)

/-- One generated field-decoding step for a field `fieldName` of the struct
`structName`:

* `position`/`remove` via `takeField`; a missing key fails with
  `Field {fieldName} not found in Value::Map.`;
* the removed value is converted with the field type's `TryFrom<Value>`
  (`conv`); `map_err` replaces a conversion error with
  `Every field of {structName} should be convertible to Value.`;
  a panic inside the conversion propagates. -/
def getField {α : Type} (structName fieldName : String) (conv : Value → Outcome α)
    (m : List (Value × Value)) : Outcome (α × List (Value × Value)) :=
  match takeField fieldName m with
  | none => .err (.fieldMissing fieldName)
  | some (v, m') =>
    match conv v with
    | .ok a => .ok (a, m')
    | .err _ => .err (.fieldNotConvertible structName)
    | .panicked => .panicked

/-- Mirrors `rmpv::Integer::as_u64`: the integer as a `u64` when it is
non-negative (`rmpv` stores non-negative integers as `u64`), else `None`. -/
def intAsU64 : Int → Option Nat
  | .ofNat n => some n
  | .negSucc _ => none

/-- `rmpv`'s `TryFrom<Value> for f64`: succeeds exactly on the `F64` variant. -/
def floatFromValue : Value → Outcome ℝ
  | .float f => .ok f
  | _ => .err .notConvertible

/-- `rmpv`'s `TryFrom<Value> for bool`: succeeds exactly on `Boolean`. -/
def boolFromValue : Value → Outcome Bool
  | .boolean b => .ok b
  | _ => .err .notConvertible

/-- `rmpv`'s `TryFrom<Value> for u64`: an `Integer` through `as_u64`. -/
def u64FromValue : Value → Outcome Nat
  | .integer i =>
    match intAsU64 i with
    | some n => .ok n
    | none => .err .notConvertible
  | _ => .err .notConvertible

/-- `rmpv`'s `TryFrom<Value> for String`: succeeds exactly on `String`. -/
def stringFromValue : Value → Outcome String
  | .str s => .ok s
  | _ => .err .notConvertible

-- ---------- --
-- IMAGE TYPE --
-- ---------- --

/-- The `ImageType` enum of `src/types.rs`, discriminants 0..=7 in
declaration order. -/
inductive ImageType where
  | Scene
  | DepthPlanner
  | DepthPerspective
  | DepthVis
  | DisparityNormalized
  | Segmentation
  | SurfaceNormals
  | Infrared

/-- The discriminant (`value as u64`) of an `ImageType`. -/
def ImageType.toU64 : ImageType → Nat
  | .Scene => 0
  | .DepthPlanner => 1
  | .DepthPerspective => 2
  | .DepthVis => 3
  | .DisparityNormalized => 4
  | .Segmentation => 5
  | .SurfaceNormals => 6
  | .Infrared => 7

/-- `impl From<ImageType> for Value`: `Value::from(value as u64)`. -/
def ImageType.toValue (t : ImageType) : Value :=
  .integer (ImageType.toU64 t)

/-- `impl TryFrom<Value> for ImageType` (hand-written in `src/types.rs`):
on an `Integer`, `value.as_u64().unwrap()` — the `unwrap` panics when
`as_u64` is `None`, i.e. on every negative integer (the source marks this
with `TODO: remove unwrap`) — then a match sending 0..=7 to the variants in
order and everything else to `Err(anyhow!("Invalid ImageType"))`; any
non-`Integer` value is `Err(anyhow!("Invalid ImageType"))`. -/
def ImageType.tryFromValue : Value → Outcome ImageType
  | .integer i =>
    match intAsU64 i with
    | none => .panicked
    | some n =>
      match n with
      | 0 => .ok .Scene
      | 1 => .ok .DepthPlanner
      | 2 => .ok .DepthPerspective
      | 3 => .ok .DepthVis
      | 4 => .ok .DisparityNormalized
      | 5 => .ok .Segmentation
      | 6 => .ok .SurfaceNormals
      | 7 => .ok .Infrared
      | _ => .err .invalidImageType
  | _ => .err .invalidImageType

-- ------------ --
-- CAR CONTROLS --
-- ------------ --

/-- The `CarControls` struct of `src/types.rs` (`u64` as `Nat`, `f64` as ℝ). -/
structure CarControls where
  throttle : ℝ
  steering : ℝ
  brake : ℝ
  handbrake : Bool
  is_manual_gear : Bool
  manual_gear : Nat
  gear_immediate : Bool

/-- The key/value pairs pushed by the generated `From<CarControls> for
Value`: one `(stringify!(field_name), field.into())` per field, in declared
field order. -/
def CarControls.entries (r : CarControls) : List (Value × Value) :=
  [ (.str "throttle", .float r.throttle),
    (.str "steering", .float r.steering),
    (.str "brake", .float r.brake),
    (.str "handbrake", .boolean r.handbrake),
    (.str "is_manual_gear", .boolean r.is_manual_gear),
    (.str "manual_gear", .integer r.manual_gear),
    (.str "gear_immediate", .boolean r.gear_immediate) ]

/-- Generated `impl From<CarControls> for Value`: the map of `entries`. -/
def CarControls.toValue (r : CarControls) : Value :=
  .map r.entries

/-- Generated `impl TryFrom<Value> for CarControls`: a `Map` is consumed
field by field in schema order (each field looked up by name and removed);
the working map must end up empty, else
`Value::Map contains extra fields: ...`; a non-`Map` input fails with
`Value should be a Map to be converted to CarControls`. -/
def CarControls.tryFromValue : Value → Outcome CarControls
  | .map m => do
    let (throttle, m) ← getField "CarControls" "throttle" floatFromValue m
    let (steering, m) ← getField "CarControls" "steering" floatFromValue m
    let (brake, m) ← getField "CarControls" "brake" floatFromValue m
    let (handbrake, m) ← getField "CarControls" "handbrake" boolFromValue m
    let (is_manual_gear, m) ← getField "CarControls" "is_manual_gear" boolFromValue m
    let (manual_gear, m) ← getField "CarControls" "manual_gear" u64FromValue m
    let (gear_immediate, m) ← getField "CarControls" "gear_immediate" boolFromValue m
    if m.isEmpty then
      pure ⟨throttle, steering, brake, handbrake, is_manual_gear, manual_gear, gear_immediate⟩
    else
      .err (.extraFields m)
  | _ => .err (.notAMap "CarControls")

-- --------- --
-- VECTOR 3R --
-- --------- --

/-- The `Vector3r` struct of `src/types.rs` (`f64` as ℝ). -/
structure Vector3r where
  x_val : ℝ
  y_val : ℝ
  z_val : ℝ

/-- `Vector3r::dot`: sum of the products of corresponding components. -/
noncomputable def Vector3r.dot (self other : Vector3r) : ℝ :=
  self.x_val * other.x_val + self.y_val * other.y_val + self.z_val * other.z_val

/-- `Vector3r::cross`: the standard 3D cross product. -/
noncomputable def Vector3r.cross (self other : Vector3r) : Vector3r :=
  ⟨ self.y_val * other.z_val - self.z_val * other.y_val,
    self.z_val * other.x_val - self.x_val * other.z_val,
    self.x_val * other.y_val - self.y_val * other.x_val ⟩

/-- `Vector3r::get_length`: Euclidean norm. -/
noncomputable def Vector3r.get_length (self : Vector3r) : ℝ :=
  Real.sqrt (self.x_val ^ 2 + self.y_val ^ 2 + self.z_val ^ 2)

/-- Key/value pairs of the generated `From<Vector3r> for Value`. -/
def Vector3r.entries (v : Vector3r) : List (Value × Value) :=
  [ (.str "x_val", .float v.x_val),
    (.str "y_val", .float v.y_val),
    (.str "z_val", .float v.z_val) ]

/-- Generated `impl From<Vector3r> for Value`. -/
def Vector3r.toValue (v : Vector3r) : Value :=
  .map v.entries

/-- Generated `impl TryFrom<Value> for Vector3r`. -/
def Vector3r.tryFromValue : Value → Outcome Vector3r
  | .map m => do
    let (x_val, m) ← getField "Vector3r" "x_val" floatFromValue m
    let (y_val, m) ← getField "Vector3r" "y_val" floatFromValue m
    let (z_val, m) ← getField "Vector3r" "z_val" floatFromValue m
    if m.isEmpty then pure ⟨x_val, y_val, z_val⟩ else .err (.extraFields m)
  | _ => .err (.notAMap "Vector3r")

-- ----------- --
-- QUATERNIONR --
-- ----------- --

/-- The `Quaternionr` struct of `src/types.rs`, fields declared in the
order `w_val`, `x_val`, `y_val`, `z_val` (`f64` as ℝ). -/
structure Quaternionr where
  w_val : ℝ
  x_val : ℝ
  y_val : ℝ
  z_val : ℝ

/-- `Quaternionr::dot`: sum of the products of corresponding components. -/
noncomputable def Quaternionr.dot (self other : Quaternionr) : ℝ :=
  self.w_val * other.w_val + self.x_val * other.x_val
    + self.y_val * other.y_val + self.z_val * other.z_val

/-- `impl Mul for Quaternionr` of `src/types.rs`, transcribed with the
source's own local names: `(t, x, y, z)` are the components of `self`,
`(a, b, c, d)` those of `other`. -/
noncomputable def Quaternionr.mul (self other : Quaternionr) : Quaternionr :=
  let t := self.w_val
  let x := self.x_val
  let y := self.y_val
  let z := self.z_val
  let a := other.w_val
  let b := other.x_val
  let c := other.y_val
  let d := other.z_val
  ⟨ a * t - b * x - c * y - d * z,
    b * t + a * x + d * y - c * z,
    c * t + a * y + b * z - d * x,
    d * t + z * a + c * x - b * y ⟩

/-- `Quaternionr::conjugate`: negate `x_val`, `y_val`, `z_val`, keep `w_val`. -/
noncomputable def Quaternionr.conjugate (self : Quaternionr) : Quaternionr :=
  ⟨self.w_val, -self.x_val, -self.y_val, -self.z_val⟩

/-- `Quaternionr::star`: alias for `conjugate`. -/
noncomputable def Quaternionr.star (self : Quaternionr) : Quaternionr :=
  self.conjugate

/-- `impl DivAssign<f64> for Quaternionr`: componentwise division by a
scalar.  Real division in Lean is total with `x / 0 = 0`; the source's
`f64` division by `0.0` instead produces non-finite components.  Both are
total: no error is ever raised by a division. -/
noncomputable def Quaternionr.divScalar (self : Quaternionr) (s : ℝ) : Quaternionr :=
  ⟨self.w_val / s, self.x_val / s, self.y_val / s, self.z_val / s⟩

/-- `Quaternionr::inverse`: `star` divided (componentwise, unconditionally)
by `self.dot(self)`.  The source performs the division for every input,
including a zero squared norm: the function is total and has no error
path. -/
noncomputable def Quaternionr.inverse (self : Quaternionr) : Quaternionr :=
  self.star.divScalar (self.dot self)

/-- `Quaternionr::get_length`: Euclidean norm of the four components. -/
noncomputable def Quaternionr.get_length (self : Quaternionr) : ℝ :=
  Real.sqrt (self.w_val ^ 2 + self.x_val ^ 2 + self.y_val ^ 2 + self.z_val ^ 2)

/-- `Quaternionr::sgn`: `self` divided (componentwise, unconditionally) by
`self.get_length()`.  Total; no error path. -/
noncomputable def Quaternionr.sgn (self : Quaternionr) : Quaternionr :=
  self.divScalar self.get_length

open Classical in
/-- `Quaternionr::rotate`: `Ok(*other * *self * other.inverse())` when
`other.get_length() == 1.0` holds exactly, else
`Err(anyhow!("Quaternion is not normalized"))`. -/
noncomputable def Quaternionr.rotate (self other : Quaternionr) : Except String Quaternionr :=
  if other.get_length = 1 then
    .ok ((other.mul self).mul other.inverse)
  else
    .error "Quaternion is not normalized"

/-- `impl From<Vector3r> for Quaternionr` of `src/types.rs`, exactly as
written there: `w_val: value.x_val, x_val: value.y_val, y_val: value.z_val,
z_val: 0.0`. -/
noncomputable def Quaternionr.fromVector3r (value : Vector3r) : Quaternionr :=
  ⟨value.x_val, value.y_val, value.z_val, 0⟩

/-- Key/value pairs of the generated `From<Quaternionr> for Value`. -/
def Quaternionr.entries (q : Quaternionr) : List (Value × Value) :=
  [ (.str "w_val", .float q.w_val),
    (.str "x_val", .float q.x_val),
    (.str "y_val", .float q.y_val),
    (.str "z_val", .float q.z_val) ]

/-- Generated `impl From<Quaternionr> for Value`. -/
def Quaternionr.toValue (q : Quaternionr) : Value :=
  .map q.entries

/-- Generated `impl TryFrom<Value> for Quaternionr`. -/
def Quaternionr.tryFromValue : Value → Outcome Quaternionr
  | .map m => do
    let (w_val, m) ← getField "Quaternionr" "w_val" floatFromValue m
    let (x_val, m) ← getField "Quaternionr" "x_val" floatFromValue m
    let (y_val, m) ← getField "Quaternionr" "y_val" floatFromValue m
    let (z_val, m) ← getField "Quaternionr" "z_val" floatFromValue m
    if m.isEmpty then pure ⟨w_val, x_val, y_val, z_val⟩ else .err (.extraFields m)
  | _ => .err (.notAMap "Quaternionr")

-- ---- --
-- POSE --
-- ---- --

/-- The `Pose` struct of `src/types.rs`. -/
structure Pose where
  position : Vector3r
  orientation : Quaternionr

/-- Key/value pairs of the generated `From<Pose> for Value`: nested record
fields recurse through their own `Into<Value>`. -/
def Pose.entries (p : Pose) : List (Value × Value) :=
  [ (.str "position", p.position.toValue),
    (.str "orientation", p.orientation.toValue) ]

/-- Generated `impl From<Pose> for Value`. -/
def Pose.toValue (p : Pose) : Value :=
  .map p.entries

/-- Generated `impl TryFrom<Value> for Pose`: nested record fields decode
recursively; an inner decode error is discarded by `map_err` and replaced
with the outer struct's `fieldNotConvertible`. -/
def Pose.tryFromValue : Value → Outcome Pose
  | .map m => do
    let (position, m) ← getField "Pose" "position" Vector3r.tryFromValue m
    let (orientation, m) ← getField "Pose" "orientation" Quaternionr.tryFromValue m
    if m.isEmpty then pure ⟨position, orientation⟩ else .err (.extraFields m)
  | _ => .err (.notAMap "Pose")

-- ------------- --
-- IMAGE REQUEST --
-- ------------- --

/-- The `ImageRequest` struct of `src/types.rs`. -/
structure ImageRequest where
  camera_name : String
  image_type : ImageType
  pixels_as_float : Bool
  compress : Bool

/-- Key/value pairs of the generated `From<ImageRequest> for Value`: the
enumeration field is encoded through `From<ImageType> for Value`, i.e. as
its integer discriminant. -/
def ImageRequest.entries (r : ImageRequest) : List (Value × Value) :=
  [ (.str "camera_name", .str r.camera_name),
    (.str "image_type", r.image_type.toValue),
    (.str "pixels_as_float", .boolean r.pixels_as_float),
    (.str "compress", .boolean r.compress) ]

/-- Generated `impl From<ImageRequest> for Value`. -/
def ImageRequest.toValue (r : ImageRequest) : Value :=
  .map r.entries

/-- Generated `impl TryFrom<Value> for ImageRequest`: the `image_type`
field is converted with the hand-written `TryFrom<Value> for ImageType`
(whose panic on negative integers propagates through the record decode). -/
def ImageRequest.tryFromValue : Value → Outcome ImageRequest
  | .map m => do
    let (camera_name, m) ← getField "ImageRequest" "camera_name" stringFromValue m
    let (image_type, m) ← getField "ImageRequest" "image_type" ImageType.tryFromValue m
    let (pixels_as_float, m) ← getField "ImageRequest" "pixels_as_float" boolFromValue m
    let (compress, m) ← getField "ImageRequest" "compress" boolFromValue m
    if m.isEmpty then pure ⟨camera_name, image_type, pixels_as_float, compress⟩
    else .err (.extraFields m)
  | _ => .err (.notAMap "ImageRequest")

-- ---------------- --
-- KINEMATICS STATE --
-- ---------------- --

/-- The `KinematicsState` struct of `src/types.rs`. -/
structure KinematicsState where
  position : Vector3r
  orientation : Quaternionr
  linear_velocity : Vector3r
  angular_velocity : Vector3r
  linear_acceleration : Vector3r
  angular_acceleration : Vector3r

/-- Key/value pairs of the generated `From<KinematicsState> for Value`. -/
def KinematicsState.entries (r : KinematicsState) : List (Value × Value) :=
  [ (.str "position", r.position.toValue),
    (.str "orientation", r.orientation.toValue),
    (.str "linear_velocity", r.linear_velocity.toValue),
    (.str "angular_velocity", r.angular_velocity.toValue),
    (.str "linear_acceleration", r.linear_acceleration.toValue),
    (.str "angular_acceleration", r.angular_acceleration.toValue) ]

/-- Generated `impl From<KinematicsState> for Value`. -/
def KinematicsState.toValue (r : KinematicsState) : Value :=
  .map r.entries

/-- Generated `impl TryFrom<Value> for KinematicsState`. -/
def KinematicsState.tryFromValue : Value → Outcome KinematicsState
  | .map m => do
    let (position, m) ← getField "KinematicsState" "position" Vector3r.tryFromValue m
    let (orientation, m) ← getField "KinematicsState" "orientation" Quaternionr.tryFromValue m
    let (linear_velocity, m) ← getField "KinematicsState" "linear_velocity" Vector3r.tryFromValue m
    let (angular_velocity, m) ← getField "KinematicsState" "angular_velocity" Vector3r.tryFromValue m
    let (linear_acceleration, m) ← getField "KinematicsState" "linear_acceleration" Vector3r.tryFromValue m
    let (angular_acceleration, m) ← getField "KinematicsState" "angular_acceleration" Vector3r.tryFromValue m
    if m.isEmpty then
      pure ⟨position, orientation, linear_velocity, angular_velocity,
            linear_acceleration, angular_acceleration⟩
    else .err (.extraFields m)
  | _ => .err (.notAMap "KinematicsState")

/-- Remove the entry at index `i` of a list (identity when out of range);
used to build a wire map that lacks one declared field. -/
def removeAt {α : Type} : List α → Nat → List α
  | [], _ => []
  | _ :: as, 0 => as
  | a :: as, n + 1 => a :: removeAt as n

-- ------------------------------------------------------------------ --
-- Helper lemmas about the generated field lookup (by name, not by    --
-- position) and the length bookkeeping of the working map.           --
-- ------------------------------------------------------------------ --

/-- A key produced by the encoder for field `name` matches `name`. -/
theorem keyMatches_self (name : String) : keyMatches (.str name) name = true := by
  simp [keyMatches, Value.asStr]

/-- Field lookup by name is insensitive to the physical order of the wire
map: if `m` is a permutation of `(name, v)` followed by entries none of
which match `name`, then `takeField` finds exactly `v` and leaves a
permutation of the other entries. -/
theorem takeField_perm (name : String) (v : Value) :
    ∀ (m l : List (Value × Value)), m.Perm ((Value.str name, v) :: l) →
    (∀ e ∈ l, keyMatches e.1 name = false) →
    ∃ m', takeField name m = some (v, m') ∧ m'.Perm l := by
  intro m
  induction m with
  | nil =>
    intro l h _
    exact absurd h.length_eq (by simp)
  | cons e m ih =>
    intro l hperm hl
    by_cases hm : keyMatches e.1 name
    · have he : e = (Value.str name, v) := by
        have hmem : e ∈ (Value.str name, v) :: l :=
          hperm.mem_iff.mp (List.mem_cons_self e m)
        rcases List.mem_cons.mp hmem with h | h
        · exact h
        · exact absurd hm (by simp [hl e h])
      subst he
      exact ⟨m, by simp [takeField, hm], hperm.cons_inv⟩
    · have hmem : e ∈ (Value.str name, v) :: l :=
        hperm.mem_iff.mp (List.mem_cons_self e m)
      have he : e ∈ l := by
        rcases List.mem_cons.mp hmem with h | h
        · subst h
          exact absurd (keyMatches_self name) (by simpa using hm)
        · exact h
      obtain ⟨l₁, l₂, rfl⟩ := List.append_of_mem he
      have hstep : ((Value.str name, v) :: (l₁ ++ e :: l₂)).Perm
          (e :: (Value.str name, v) :: (l₁ ++ l₂)) := by
        refine List.Perm.trans (List.Perm.cons _ List.perm_middle) ?_
        exact List.Perm.swap _ _ _
      have hp : m.Perm ((Value.str name, v) :: (l₁ ++ l₂)) :=
        (hperm.trans hstep).cons_inv
      have hl' : ∀ e' ∈ l₁ ++ l₂, keyMatches e'.1 name = false := by
        intro e' he'
        apply hl
        rcases List.mem_append.mp he' with h | h
        · exact List.mem_append.mpr (Or.inl h)
        · exact List.mem_append.mpr (Or.inr (List.mem_cons_of_mem _ h))
      obtain ⟨m', hm', hp'⟩ := ih (l₁ ++ l₂) hp hl'
      refine ⟨e :: m', by simp [takeField, hm, hm'], ?_⟩
      exact (hp'.cons e).trans List.perm_middle.symm

/-- One whole generated decoding step under permutation: with the wire map
a permutation of the expected entry followed by non-matching entries, and
the expected value converting successfully, the step succeeds with the
converted value and a permutation of the remaining entries. -/
theorem getField_perm_step {α : Type} (structName fieldName : String)
    (conv : Value → Outcome α) (v : Value) (a : α) (hconv : conv v = .ok a)
    (m l : List (Value × Value))
    (hperm : m.Perm ((Value.str fieldName, v) :: l))
    (hl : ∀ e ∈ l, keyMatches e.1 fieldName = false) :
    ∃ m', getField structName fieldName conv m = .ok (a, m') ∧ m'.Perm l := by
  obtain ⟨m', hm', hp⟩ := takeField_perm fieldName v m l hperm hl
  exact ⟨m', by simp [getField, hm', hconv], hp⟩

/-- Removing a found field shrinks the working map by exactly one entry. -/
theorem takeField_length (name : String) :
    ∀ (m m' : List (Value × Value)) (v : Value),
    takeField name m = some (v, m') → m.length = m'.length + 1 := by
  intro m
  induction m with
  | nil =>
    intro m' v h
    simp [takeField] at h
  | cons e rest ih =>
    intro m' v h
    by_cases hm : keyMatches e.1 name
    · simp [takeField, hm] at h
      obtain ⟨-, rfl⟩ := h
      simp
    · simp only [takeField, hm, if_false, Bool.false_eq_true] at h
      cases htf : takeField name rest with
      | none => rw [htf] at h; simp at h
      | some p =>
        obtain ⟨v₂, rest₂⟩ := p
        rw [htf] at h
        simp only [Option.some.injEq, Prod.mk.injEq] at h
        obtain ⟨-, rfl⟩ := h
        simp [ih rest₂ v₂ htf]

/-- Inversion of a successful monadic bind on `Outcome`. -/
theorem bind_eq_ok {α β : Type} {x : Outcome α} {f : α → Outcome β} {b : β}
    (h : x >>= f = .ok b) : ∃ a, x = .ok a ∧ f a = .ok b := by
  cases x with
  | ok a => exact ⟨a, rfl, h⟩
  | err e => simp at h
  | panicked => simp at h

/-- Inversion of a successful generated field-decoding step. -/
theorem getField_eq_ok {α : Type} {structName fieldName : String}
    {conv : Value → Outcome α} {m : List (Value × Value)} {a : α}
    {m' : List (Value × Value)}
    (h : getField structName fieldName conv m = .ok (a, m')) :
    ∃ v, takeField fieldName m = some (v, m') ∧ conv v = .ok a := by
  unfold getField at h
  cases htf : takeField fieldName m with
  | none => rw [htf] at h; exact absurd h (by simp)
  | some p =>
    obtain ⟨v, m₂⟩ := p
    rw [htf] at h
    dsimp only at h
    cases hc : conv v with
    | ok a₂ =>
      rw [hc] at h
      simp only [Outcome.ok.injEq, Prod.mk.injEq] at h
      obtain ⟨rfl, rfl⟩ := h
      exact ⟨v, rfl, hc⟩
    | err e => rw [hc] at h; exact absurd h (by simp)
    | panicked => rw [hc] at h; exact absurd h (by simp)

/-- A successful field-decoding step shrinks the working map by exactly
one entry. -/
theorem getField_length {α : Type} {structName fieldName : String}
    {conv : Value → Outcome α} {m : List (Value × Value)} {a : α}
    {m' : List (Value × Value)}
    (h : getField structName fieldName conv m = .ok (a, m')) :
    m.length = m'.length + 1 := by
  obtain ⟨v, htf, -⟩ := getField_eq_ok h
  exact takeField_length fieldName m m' v htf

/-- Round-trip of the enumeration through its wire discriminant. -/
theorem imageType_roundtrip (t : ImageType) :
    ImageType.tryFromValue t.toValue = .ok t := by
  cases t <;> rfl

/-- Decoding `CarControls` succeeds on any permutation of its encoded map. -/
theorem carControls_tryFromValue_perm (r : CarControls) (m : List (Value × Value))
    (hm : m.Perm r.entries) :
    CarControls.tryFromValue (.map m) = .ok r := by
  obtain ⟨m₁, h₁, hp₁⟩ := getField_perm_step "CarControls" "throttle" floatFromValue
    (.float r.throttle) r.throttle rfl m _ hm
    (by intro e he
        simp only [List.mem_cons, List.not_mem_nil, or_false] at he
        rcases he with rfl | rfl | rfl | rfl | rfl | rfl <;> rfl)
  obtain ⟨m₂, h₂, hp₂⟩ := getField_perm_step "CarControls" "steering" floatFromValue
    (.float r.steering) r.steering rfl m₁ _ hp₁
    (by intro e he
        simp only [List.mem_cons, List.not_mem_nil, or_false] at he
        rcases he with rfl | rfl | rfl | rfl | rfl <;> rfl)
  obtain ⟨m₃, h₃, hp₃⟩ := getField_perm_step "CarControls" "brake" floatFromValue
    (.float r.brake) r.brake rfl m₂ _ hp₂
    (by intro e he
        simp only [List.mem_cons, List.not_mem_nil, or_false] at he
        rcases he with rfl | rfl | rfl | rfl <;> rfl)
  obtain ⟨m₄, h₄, hp₄⟩ := getField_perm_step "CarControls" "handbrake" boolFromValue
    (.boolean r.handbrake) r.handbrake rfl m₃ _ hp₃
    (by intro e he
        simp only [List.mem_cons, List.not_mem_nil, or_false] at he
        rcases he with rfl | rfl | rfl <;> rfl)
  obtain ⟨m₅, h₅, hp₅⟩ := getField_perm_step "CarControls" "is_manual_gear" boolFromValue
    (.boolean r.is_manual_gear) r.is_manual_gear rfl m₄ _ hp₄
    (by intro e he
        simp only [List.mem_cons, List.not_mem_nil, or_false] at he
        rcases he with rfl | rfl <;> rfl)
  obtain ⟨m₆, h₆, hp₆⟩ := getField_perm_step "CarControls" "manual_gear" u64FromValue
    (.integer r.manual_gear) r.manual_gear rfl m₅ _ hp₅
    (by intro e he
        simp only [List.mem_cons, List.not_mem_nil, or_false] at he
        rcases he with rfl
        rfl)
  obtain ⟨m₇, h₇, hp₇⟩ := getField_perm_step "CarControls" "gear_immediate" boolFromValue
    (.boolean r.gear_immediate) r.gear_immediate rfl m₆ _ hp₆
    (by intro e he
        exact absurd he (List.not_mem_nil e))
  have he₇ : m₇ = [] := hp₇.eq_nil
  subst he₇
  simp only [CarControls.tryFromValue, h₁, Outcome.ok_bind, h₂, h₃, h₄, h₅, h₆, h₇]
  rfl

/-- Decoding `Pose` succeeds on any permutation of its encoded map. -/
theorem pose_tryFromValue_perm (r : Pose) (m : List (Value × Value))
    (hm : m.Perm r.entries) :
    Pose.tryFromValue (.map m) = .ok r := by
  obtain ⟨m₁, h₁, hp₁⟩ := getField_perm_step "Pose" "position" Vector3r.tryFromValue
    r.position.toValue r.position rfl m _ hm
    (by intro e he
        simp only [List.mem_cons, List.not_mem_nil, or_false] at he
        rcases he with rfl
        rfl)
  obtain ⟨m₂, h₂, hp₂⟩ := getField_perm_step "Pose" "orientation" Quaternionr.tryFromValue
    r.orientation.toValue r.orientation rfl m₁ _ hp₁
    (by intro e he
        exact absurd he (List.not_mem_nil e))
  have he₂ : m₂ = [] := hp₂.eq_nil
  subst he₂
  simp only [Pose.tryFromValue, h₁, Outcome.ok_bind, h₂]
  rfl

/-- Decoding `ImageRequest` succeeds on any permutation of its encoded map. -/
theorem imageRequest_tryFromValue_perm (r : ImageRequest) (m : List (Value × Value))
    (hm : m.Perm r.entries) :
    ImageRequest.tryFromValue (.map m) = .ok r := by
  obtain ⟨m₁, h₁, hp₁⟩ := getField_perm_step "ImageRequest" "camera_name" stringFromValue
    (.str r.camera_name) r.camera_name rfl m _ hm
    (by intro e he
        simp only [List.mem_cons, List.not_mem_nil, or_false] at he
        rcases he with rfl | rfl | rfl <;> rfl)
  obtain ⟨m₂, h₂, hp₂⟩ := getField_perm_step "ImageRequest" "image_type" ImageType.tryFromValue
    r.image_type.toValue r.image_type (imageType_roundtrip r.image_type) m₁ _ hp₁
    (by intro e he
        simp only [List.mem_cons, List.not_mem_nil, or_false] at he
        rcases he with rfl | rfl <;> rfl)
  obtain ⟨m₃, h₃, hp₃⟩ := getField_perm_step "ImageRequest" "pixels_as_float" boolFromValue
    (.boolean r.pixels_as_float) r.pixels_as_float rfl m₂ _ hp₂
    (by intro e he
        simp only [List.mem_cons, List.not_mem_nil, or_false] at he
        rcases he with rfl
        rfl)
  obtain ⟨m₄, h₄, hp₄⟩ := getField_perm_step "ImageRequest" "compress" boolFromValue
    (.boolean r.compress) r.compress rfl m₃ _ hp₃
    (by intro e he
        exact absurd he (List.not_mem_nil e))
  have he₄ : m₄ = [] := hp₄.eq_nil
  subst he₄
  simp only [ImageRequest.tryFromValue, h₁, Outcome.ok_bind, h₂, h₃, h₄]
  rfl

/-- Decoding `KinematicsState` succeeds on any permutation of its encoded map. -/
theorem kinematicsState_tryFromValue_perm (r : KinematicsState) (m : List (Value × Value))
    (hm : m.Perm r.entries) :
    KinematicsState.tryFromValue (.map m) = .ok r := by
  obtain ⟨m₁, h₁, hp₁⟩ := getField_perm_step "KinematicsState" "position" Vector3r.tryFromValue
    r.position.toValue r.position rfl m _ hm
    (by intro e he
        simp only [List.mem_cons, List.not_mem_nil, or_false] at he
        rcases he with rfl | rfl | rfl | rfl | rfl <;> rfl)
  obtain ⟨m₂, h₂, hp₂⟩ := getField_perm_step "KinematicsState" "orientation"
    Quaternionr.tryFromValue r.orientation.toValue r.orientation rfl m₁ _ hp₁
    (by intro e he
        simp only [List.mem_cons, List.not_mem_nil, or_false] at he
        rcases he with rfl | rfl | rfl | rfl <;> rfl)
  obtain ⟨m₃, h₃, hp₃⟩ := getField_perm_step "KinematicsState" "linear_velocity"
    Vector3r.tryFromValue r.linear_velocity.toValue r.linear_velocity rfl m₂ _ hp₂
    (by intro e he
        simp only [List.mem_cons, List.not_mem_nil, or_false] at he
        rcases he with rfl | rfl | rfl <;> rfl)
  obtain ⟨m₄, h₄, hp₄⟩ := getField_perm_step "KinematicsState" "angular_velocity"
    Vector3r.tryFromValue r.angular_velocity.toValue r.angular_velocity rfl m₃ _ hp₃
    (by intro e he
        simp only [List.mem_cons, List.not_mem_nil, or_false] at he
        rcases he with rfl | rfl <;> rfl)
  obtain ⟨m₅, h₅, hp₅⟩ := getField_perm_step "KinematicsState" "linear_acceleration"
    Vector3r.tryFromValue r.linear_acceleration.toValue r.linear_acceleration rfl m₄ _ hp₄
    (by intro e he
        simp only [List.mem_cons, List.not_mem_nil, or_false] at he
        rcases he with rfl
        rfl)
  obtain ⟨m₆, h₆, hp₆⟩ := getField_perm_step "KinematicsState" "angular_acceleration"
    Vector3r.tryFromValue r.angular_acceleration.toValue r.angular_acceleration rfl m₅ _ hp₅
    (by intro e he
        exact absurd he (List.not_mem_nil e))
  have he₆ : m₆ = [] := hp₆.eq_nil
  subst he₆
  simp only [KinematicsState.tryFromValue, h₁, Outcome.ok_bind, h₂, h₃, h₄, h₅, h₆]
  rfl

-- ------------------------------------------------------------------ --
-- Claim theorems                                                     --
-- ------------------------------------------------------------------ --

/-- C1: for every catalog record type embedded here (`CarControls`,
`KinematicsState`, `ImageRequest`, `Pose`) and every record value `r`,
decoding the wire value produced by encoding `r` yields exactly `r`
(field values, floating-point included, pass through unchanged). -/
theorem claim_C1_roundtrip :
    (∀ r : CarControls, CarControls.tryFromValue (CarControls.toValue r) = .ok r) ∧
    (∀ r : KinematicsState, KinematicsState.tryFromValue (KinematicsState.toValue r) = .ok r) ∧
    (∀ r : ImageRequest, ImageRequest.tryFromValue (ImageRequest.toValue r) = .ok r) ∧
    (∀ r : Pose, Pose.tryFromValue (Pose.toValue r) = .ok r) := by
  refine ⟨fun _ => rfl, fun _ => rfl, ?_, fun _ => rfl⟩
  rintro ⟨cn, it, paf, co⟩
  cases it <;> rfl

/-- C3, evaluation of the code at the failing input: the source's
`From<Vector3r> for Quaternionr` maps the vector `(1, 2, 3)` to the
quaternion with `w_val = 1, x_val = 2, y_val = 3, z_val = 0` (a positional
shift of the fields), not to the claimed embedding
`w_val = 0, x_val = 1, y_val = 2, z_val = 3`. -/
theorem claim_C3_vector_embedding_bug :
    Quaternionr.fromVector3r ⟨1, 2, 3⟩ = ⟨1, 2, 3, 0⟩ ∧
    Quaternionr.fromVector3r ⟨1, 2, 3⟩ ≠ ⟨0, 1, 2, 3⟩ := by
  refine ⟨rfl, fun h => ?_⟩
  have h1 := congrArg Quaternionr.w_val h
  simp only [Quaternionr.fromVector3r] at h1
  norm_num at h1

/-- C6, evaluation of the code at the failing input: decoding the integer
`-1` as `ImageType` panics (the `as_u64().unwrap()` aborts the process
instead of returning an error), while `9` is rejected with the
"Invalid ImageType" error and `0` decodes to the first declared variant
`Scene`. -/
theorem claim_C6_imageType_negative_panics :
    ImageType.tryFromValue (.integer (-1)) = .panicked ∧
    ImageType.tryFromValue (.integer 9) = .err .invalidImageType ∧
    ImageType.tryFromValue (.integer 0) = .ok .Scene :=
  ⟨rfl, rfl, rfl⟩

/-- C7: the source's quaternion multiplication is the Hamilton product,
with exactly the component formulas stated in the specification. -/
theorem claim_C7_hamilton_product (a b : Quaternionr) :
    a.mul b =
      ⟨ a.w_val * b.w_val - a.x_val * b.x_val - a.y_val * b.y_val - a.z_val * b.z_val,
        a.x_val * b.w_val + a.w_val * b.x_val + a.y_val * b.z_val - a.z_val * b.y_val,
        a.y_val * b.w_val + a.w_val * b.y_val + a.z_val * b.x_val - a.x_val * b.z_val,
        a.z_val * b.w_val + a.w_val * b.z_val + a.x_val * b.y_val - a.y_val * b.x_val ⟩ := by
  simp only [Quaternionr.mul, Quaternionr.mk.injEq]
  refine ⟨by ring, by ring, by ring, by ring⟩

/-- C8: encoding produces a map with exactly one entry per declared field,
keyed by the exact field name, in the record's declared field order; in
particular the concrete control record
`(throttle 1, steering 0, brake 0, handbrake false, is_manual_gear false,
manual_gear 0, gear_immediate true)` encodes to exactly 7 entries in that
order with those literal values. -/
theorem claim_C8_encode_shape :
    (∀ r : CarControls, CarControls.toValue r = .map
      [ (.str "throttle", .float r.throttle),
        (.str "steering", .float r.steering),
        (.str "brake", .float r.brake),
        (.str "handbrake", .boolean r.handbrake),
        (.str "is_manual_gear", .boolean r.is_manual_gear),
        (.str "manual_gear", .integer r.manual_gear),
        (.str "gear_immediate", .boolean r.gear_immediate) ]) ∧
    CarControls.toValue ⟨1, 0, 0, false, false, 0, true⟩ = .map
      [ (.str "throttle", .float 1),
        (.str "steering", .float 0),
        (.str "brake", .float 0),
        (.str "handbrake", .boolean false),
        (.str "is_manual_gear", .boolean false),
        (.str "manual_gear", .integer 0),
        (.str "gear_immediate", .boolean true) ] ∧
    (∀ r : CarControls, (CarControls.entries r).length = 7) ∧
    (∀ r : ImageRequest, ImageRequest.toValue r = .map
      [ (.str "camera_name", .str r.camera_name),
        (.str "image_type", .integer r.image_type.toU64),
        (.str "pixels_as_float", .boolean r.pixels_as_float),
        (.str "compress", .boolean r.compress) ]) :=
  ⟨fun _ => rfl, rfl, fun _ => rfl, fun _ => rfl⟩

/-- The declared field names of `CarControls`, in schema order. -/
def CarControls.fieldNames : List String :=
  ["throttle", "steering", "brake", "handbrake", "is_manual_gear",
   "manual_gear", "gear_immediate"]

/-- The declared field names of `Pose`, in schema order. -/
def Pose.fieldNames : List String :=
  ["position", "orientation"]

/-- The declared field names of `ImageRequest`, in schema order. -/
def ImageRequest.fieldNames : List String :=
  ["camera_name", "image_type", "pixels_as_float", "compress"]

/-- The declared field names of `KinematicsState`, in schema order. -/
def KinematicsState.fieldNames : List String :=
  ["position", "orientation", "linear_velocity", "angular_velocity",
   "linear_acceleration", "angular_acceleration"]

/-- C2: for each embedded record type, decoding an encoded map with its
`i`-th declared field removed fails with the missing-field error naming
exactly that field; decoding an encoded map extended with the unexpected
key `"turbo"` fails with the extra-fields error whose payload is exactly
the leftover `"turbo"` entry; and a decode that returns an error never
also returns a record (all-or-nothing, here instantiated at
`CarControls`). -/
theorem claim_C2_completeness :
    (∀ (r : CarControls) (i : Fin 7),
        CarControls.tryFromValue (.map (removeAt r.entries i.val)) =
          .err (.fieldMissing (CarControls.fieldNames.get i))) ∧
    (∀ r : CarControls,
        CarControls.tryFromValue (.map (r.entries ++ [(.str "turbo", .nil)])) =
          .err (.extraFields [(.str "turbo", .nil)])) ∧
    (∀ (r : Pose) (i : Fin 2),
        Pose.tryFromValue (.map (removeAt r.entries i.val)) =
          .err (.fieldMissing (Pose.fieldNames.get i))) ∧
    (∀ r : Pose,
        Pose.tryFromValue (.map (r.entries ++ [(.str "turbo", .nil)])) =
          .err (.extraFields [(.str "turbo", .nil)])) ∧
    (∀ (r : ImageRequest) (i : Fin 4),
        ImageRequest.tryFromValue (.map (removeAt r.entries i.val)) =
          .err (.fieldMissing (ImageRequest.fieldNames.get i))) ∧
    (∀ r : ImageRequest,
        ImageRequest.tryFromValue (.map (r.entries ++ [(.str "turbo", .nil)])) =
          .err (.extraFields [(.str "turbo", .nil)])) ∧
    (∀ (r : KinematicsState) (i : Fin 6),
        KinematicsState.tryFromValue (.map (removeAt r.entries i.val)) =
          .err (.fieldMissing (KinematicsState.fieldNames.get i))) ∧
    (∀ r : KinematicsState,
        KinematicsState.tryFromValue (.map (r.entries ++ [(.str "turbo", .nil)])) =
          .err (.extraFields [(.str "turbo", .nil)])) ∧
    (∀ (v : Value) (e : DecodeError) (r : CarControls),
        CarControls.tryFromValue v = .err e → CarControls.tryFromValue v ≠ .ok r) := by
  refine ⟨?_, fun _ => rfl, ?_, fun _ => rfl, ?_, ?_, ?_, fun _ => rfl, ?_⟩
  · intro r i
    fin_cases i <;> rfl
  · intro r i
    fin_cases i <;> rfl
  · rintro ⟨cn, it, paf, co⟩ i
    fin_cases i <;> cases it <;> rfl
  · rintro ⟨cn, it, paf, co⟩
    cases it <;> rfl
  · intro r i
    fin_cases i <;> rfl
  · intro v e r h
    rw [h]
    simp

/-- C2 witness: a concrete missing-field failure and a concrete
demonstration that an erroring decode returns no record. -/
theorem claim_C2_completeness_witness :
    CarControls.tryFromValue
        (.map (removeAt (CarControls.entries ⟨1, 0, 0, false, false, 0, true⟩) 0)) =
      .err (.fieldMissing "throttle") ∧
    CarControls.tryFromValue (.map []) ≠ .ok ⟨1, 0, 0, false, false, 0, true⟩ := by
  constructor
  · exact claim_C2_completeness.1 ⟨1, 0, 0, false, false, 0, true⟩ 0
  · exact claim_C2_completeness.2.2.2.2.2.2.2.2 (.map []) (.fieldMissing "throttle") _ rfl

/-- C9: decode locates fields by key name, not by position: for every
embedded record value `r` and every permutation `m` of the entries of the
map produced by encoding `r`, decoding the permuted map succeeds and
yields exactly `r`. -/
theorem claim_C9_decode_by_name :
    (∀ (r : CarControls) (m : List (Value × Value)), m.Perm r.entries →
        CarControls.tryFromValue (.map m) = .ok r) ∧
    (∀ (r : Pose) (m : List (Value × Value)), m.Perm r.entries →
        Pose.tryFromValue (.map m) = .ok r) ∧
    (∀ (r : ImageRequest) (m : List (Value × Value)), m.Perm r.entries →
        ImageRequest.tryFromValue (.map m) = .ok r) ∧
    (∀ (r : KinematicsState) (m : List (Value × Value)), m.Perm r.entries →
        KinematicsState.tryFromValue (.map m) = .ok r) :=
  ⟨carControls_tryFromValue_perm, pose_tryFromValue_perm,
    imageRequest_tryFromValue_perm, kinematicsState_tryFromValue_perm⟩

/-- C9 witness: decoding the reversal of a concrete encoded map yields the
original record. -/
theorem claim_C9_decode_by_name_witness :
    ((CarControls.entries ⟨1, 0, 0, false, false, 0, true⟩).reverse).Perm
        (CarControls.entries ⟨1, 0, 0, false, false, 0, true⟩) ∧
    CarControls.tryFromValue
        (.map ((CarControls.entries ⟨1, 0, 0, false, false, 0, true⟩).reverse)) =
      .ok ⟨1, 0, 0, false, false, 0, true⟩ :=
  ⟨List.reverse_perm _,
    claim_C9_decode_by_name.1 _ _ (List.reverse_perm _)⟩

/-- C10: a duplicated field key is never merged or dropped — decode
consumes only the first occurrence of the key (here a duplicate `throttle`
prepended to an encoded map: the prepended value is consumed for the
field, and the original entry is left over, so decode fails with the
extra-fields error listing it) — and decode never succeeds on a map whose
entry count differs from the schema's field count (instantiated at
`CarControls`, whose schema has 7 fields). -/
theorem claim_C10_duplicate_keys :
    (∀ (r : CarControls) (x : ℝ),
        CarControls.tryFromValue (.map ((.str "throttle", .float x) :: r.entries)) =
          .err (.extraFields [(.str "throttle", .float r.throttle)])) ∧
    (∀ (m : List (Value × Value)) (r : CarControls),
        CarControls.tryFromValue (.map m) = .ok r → m.length = 7) := by
  refine ⟨fun _ _ => rfl, ?_⟩
  intro m r h
  simp only [CarControls.tryFromValue] at h
  obtain ⟨⟨throttle, m₁⟩, h₁, h⟩ := bind_eq_ok h
  obtain ⟨⟨steering, m₂⟩, h₂, h⟩ := bind_eq_ok h
  obtain ⟨⟨brake, m₃⟩, h₃, h⟩ := bind_eq_ok h
  obtain ⟨⟨handbrake, m₄⟩, h₄, h⟩ := bind_eq_ok h
  obtain ⟨⟨is_manual_gear, m₅⟩, h₅, h⟩ := bind_eq_ok h
  obtain ⟨⟨manual_gear, m₆⟩, h₆, h⟩ := bind_eq_ok h
  obtain ⟨⟨gear_immediate, m₇⟩, h₇, h⟩ := bind_eq_ok h
  have l₁ := getField_length h₁
  have l₂ := getField_length h₂
  have l₃ := getField_length h₃
  have l₄ := getField_length h₄
  have l₅ := getField_length h₅
  have l₆ := getField_length h₆
  have l₇ := getField_length h₇
  dsimp only at l₁ l₂ l₃ l₄ l₅ l₆ l₇
  cases hm₇ : m₇ with
  | nil =>
    rw [hm₇] at l₇
    simp only [List.length_nil] at l₇
    omega
  | cons kv tail =>
    rw [hm₇] at h
    simp at h

/-- C10 witness: a concrete successful decode whose input has exactly 7
entries. -/
theorem claim_C10_duplicate_keys_witness :
    CarControls.tryFromValue (.map (CarControls.entries ⟨1, 0, 0, false, false, 0, true⟩)) =
      .ok ⟨1, 0, 0, false, false, 0, true⟩ ∧
    (CarControls.entries ⟨1, 0, 0, false, false, 0, true⟩).length = 7 :=
  ⟨rfl, claim_C10_duplicate_keys.2 _ ⟨1, 0, 0, false, false, 0, true⟩ rfl⟩

/-- C4: `rotate` succeeds exactly when the rotor's length equals 1 (a
strict equality check), in which case it returns
`rotor · self · inverse(rotor)` (with the source's Hamilton product and
inverse); any rotor of non-unit length — in particular `(2, 0, 0, 0)` —
is rejected with the "Quaternion is not normalized" error. -/
theorem claim_C4_rotate (q r : Quaternionr) :
    (r.get_length = 1 → q.rotate r = .ok ((r.mul q).mul r.inverse)) ∧
    (r.get_length ≠ 1 → q.rotate r = .error "Quaternion is not normalized") ∧
    ((∃ res, q.rotate r = .ok res) ↔ r.get_length = 1) ∧
    q.rotate ⟨2, 0, 0, 0⟩ = .error "Quaternion is not normalized" := by
  have h2 : (Quaternionr.mk 2 0 0 0).get_length = 2 := by
    have harg : ((2 : ℝ) ^ 2 + 0 ^ 2 + 0 ^ 2 + 0 ^ 2) = 2 ^ 2 := by norm_num
    simp only [Quaternionr.get_length, harg]
    exact Real.sqrt_sq (by norm_num)
  refine ⟨?_, ?_, ⟨?_, ?_⟩, ?_⟩
  · intro h
    simp [Quaternionr.rotate, h]
  · intro h
    simp [Quaternionr.rotate, h]
  · rintro ⟨res, hres⟩
    by_contra hne
    simp [Quaternionr.rotate, hne] at hres
  · intro h
    exact ⟨(r.mul q).mul r.inverse, by simp [Quaternionr.rotate, h]⟩
  · have hne : (Quaternionr.mk 2 0 0 0).get_length ≠ 1 := by
      rw [h2]; norm_num
    simp [Quaternionr.rotate, hne]

/-- C4 witness: the identity rotor `(1, 0, 0, 0)` has length exactly 1 and
rotating the embedded vector quaternion `(0, 1, 0, 0)` by it succeeds and
leaves it unchanged. -/
theorem claim_C4_rotate_witness :
    Quaternionr.rotate ⟨0, 1, 0, 0⟩ ⟨1, 0, 0, 0⟩ = .ok ⟨0, 1, 0, 0⟩ := by
  have hlen : (Quaternionr.mk 1 0 0 0).get_length = 1 := by
    have harg : ((1 : ℝ) ^ 2 + 0 ^ 2 + 0 ^ 2 + 0 ^ 2) = 1 := by norm_num
    simp only [Quaternionr.get_length, harg, Real.sqrt_one]
  have h := (claim_C4_rotate ⟨0, 1, 0, 0⟩ ⟨1, 0, 0, 0⟩).1 hlen
  rw [h]
  norm_num [Quaternionr.mul, Quaternionr.inverse, Quaternionr.star, Quaternionr.conjugate,
    Quaternionr.divScalar, Quaternionr.dot]

/-- C5 counterexample: contrary to the claim that `inverse` and `sgn`
fail with a division-by-zero error on a zero quaternion, both are total
functions with no error path and return a quaternion value there.  (In
this exact-real model the division by the zero norm yields the zero
quaternion, by the `x / 0 = 0` convention; under IEEE `f64` the source
returns non-finite components.  Either way a quaternion is returned and
no error is raised — which is what refutes the claim.) -/
theorem claim_C5_counterexample :
    Quaternionr.inverse ⟨0, 0, 0, 0⟩ = ⟨0, 0, 0, 0⟩ ∧
    Quaternionr.sgn ⟨0, 0, 0, 0⟩ = ⟨0, 0, 0, 0⟩ := by
  constructor <;>
    norm_num [Quaternionr.inverse, Quaternionr.sgn, Quaternionr.star, Quaternionr.conjugate,
      Quaternionr.divScalar, Quaternionr.dot, Quaternionr.get_length]

/-- C5 as amended: `inverse` and `sgn` never fail — on any quaternion of
zero squared norm (hence the zero quaternion, over the reals) they perform
the division by zero and still return a quaternion value (in this model
the zero quaternion), rather than signalling any error. -/
theorem claim_C5_inverse_sgn_total (q : Quaternionr) (h : q.dot q = 0) :
    q.inverse = ⟨0, 0, 0, 0⟩ ∧ q.sgn = ⟨0, 0, 0, 0⟩ := by
  obtain ⟨w, x, y, z⟩ := q
  simp only [Quaternionr.dot] at h
  have hw : w = 0 := by
    have : w * w = 0 := by nlinarith [mul_self_nonneg x, mul_self_nonneg y, mul_self_nonneg z]
    exact mul_self_eq_zero.mp this
  have hx : x = 0 := by
    have : x * x = 0 := by nlinarith [mul_self_nonneg w, mul_self_nonneg y, mul_self_nonneg z]
    exact mul_self_eq_zero.mp this
  have hy : y = 0 := by
    have : y * y = 0 := by nlinarith [mul_self_nonneg w, mul_self_nonneg x, mul_self_nonneg z]
    exact mul_self_eq_zero.mp this
  have hz : z = 0 := by
    have : z * z = 0 := by nlinarith [mul_self_nonneg w, mul_self_nonneg x, mul_self_nonneg y]
    exact mul_self_eq_zero.mp this
  subst hw hx hy hz
  constructor <;>
    norm_num [Quaternionr.inverse, Quaternionr.sgn, Quaternionr.star, Quaternionr.conjugate,
      Quaternionr.divScalar, Quaternionr.dot, Quaternionr.get_length]

/-- C5 witness: the zero quaternion has zero squared norm, and `sgn`
still returns a quaternion value on it. -/
theorem claim_C5_inverse_sgn_total_witness :
    Quaternionr.dot ⟨0, 0, 0, 0⟩ ⟨0, 0, 0, 0⟩ = 0 ∧
    Quaternionr.sgn ⟨0, 0, 0, 0⟩ = ⟨0, 0, 0, 0⟩ := by
  have hdot : Quaternionr.dot ⟨0, 0, 0, 0⟩ ⟨0, 0, 0, 0⟩ = 0 := by
    norm_num [Quaternionr.dot]
  exact ⟨hdot, (claim_C5_inverse_sgn_total ⟨0, 0, 0, 0⟩ hdot).2⟩
